import Mathlib

/-!
Verification of the two program cores of this repository against their
specification: the password composer of src/passwordGenerator/main.py and
the quiz session loop of src/triviaGame/main.py.

Python strings are modelled over ASCII (all constants and inputs relevant
here are ASCII): str.lower is Char.toLower, str.isdigit is a check that the
string is nonempty and all of its characters are decimal digits, int on a
digit string is decimal evaluation.  The random source of the random module
is modelled by oracle functions of type Nat to Nat giving the successive
draws; random.choice picks the element at index draw mod length,
random.choices repeats that, and random.shuffle applies the permutation
that repeatedly extracts the element at a random position, its contract
being a uniformly random permutation of the list.
-/

/-- ASCII characters whose codes lie in the inclusive range from lo to hi. -/
def charRange (lo hi : Nat) : List Char :=
  (List.range (hi + 1 - lo)).map (fun i => Char.ofNat (lo + i))

/-- string.digits, the constant NUMBERS of the source. -/
def NUMBERS : List Char := charRange 48 57

/-- string.punctuation, the constant SYMBOLS of the source: the four ASCII
punctuation blocks. -/
def SYMBOLS : List Char :=
  charRange 33 47 ++ charRange 58 64 ++ charRange 91 96 ++ charRange 123 126

/-- string.ascii_uppercase. -/
def UPPERCASE_LETTERS : List Char := charRange 65 90

/-- string.ascii_lowercase. -/
def LOWERCASE_LETTERS : List Char := charRange 97 122

def MIN_PASSWORD_LENGTH : Nat := 8

def MAX_PASSWORD_LENGTH : Nat := 128

def ERROR_MESSAGE_INVALID_LENGTH : String :=
  "The password length must be a positive number."

def ERROR_MESSAGE_TOO_LARGE : String :=
  "The password length must be at most 128 characters."

def ERROR_MESSAGE_MIN_LENGTH : String :=
  "The password must be at least 8 characters long."

def ERROR_MESSAGE_NO_CHARSETS : String :=
  "Please select at least one character set."

def ERROR_MESSAGE_GROUP_MISMATCH : String :=
  "Password length must be at least as many as the selected character groups."

def ERROR_MESSAGE_EMPTY_LENGTH : String :=
  "Please provide a valid password length."

/-- Model of random.choice: the element of l at index r mod length, where r
is the oracle draw.  On an empty list the source raises; the default value
is never reached under the nonempty hypotheses used below. -/
def choice (r : Nat) (l : List Char) : Char :=
  l.getD (r % l.length) (Char.ofNat 32)

/-- The list comprehension drawing one random character from each selected
set, line 101 of the source: required_chars. -/
def required_chars (r : Nat → Nat) : List (List Char) → List Char
  | [] => []
  | cs :: rest => choice (r 0) cs :: required_chars (fun i => r (i + 1)) rest

/-- Model of random.choices with k independent uniform draws from l.  For a
negative k the source produces the empty list, matching truncated
subtraction at the call site. -/
def choices (r : Nat → Nat) (l : List Char) : Nat → List Char
  | 0 => []
  | k + 1 => choice (r 0) l :: choices (fun i => r (i + 1)) l k

/-- Fuelled body of the shuffle model: extract the element at a random
position and recurse on the remainder. -/
def shuffleGo (r : Nat → Nat) : Nat → List Char → List Char
  | 0, _ => []
  | _ + 1, [] => []
  | f + 1, l@(_ :: _) =>
      let j := r 0 % l.length
      l.getD j (Char.ofNat 32) :: shuffleGo (fun i => r (i + 1)) f (l.eraseIdx j)

/-- Model of random.shuffle: a permutation of the input determined by the
random oracle. -/
def shuffle (r : Nat → Nat) (l : List Char) : List Char :=
  shuffleGo r l.length l

/-- generate_password_with_charsets, lines 91 to 106 of
src/passwordGenerator/main.py, with the three random oracles made
explicit: one required character per selected set, filler draws from the
concatenation of the sets, and a final shuffle. -/
def generate_password_with_charsets (r1 r2 r3 : Nat → Nat)
    (selected_sets : List (List Char)) (length : Nat) : List Char :=
  let req := required_chars r1 selected_sets
  let all_chars := selected_sets.flatten
  let remaining := choices r2 all_chars (length - req.length)
  let password := req ++ remaining
  shuffle r3 password

/-- Model of str.isdigit on ASCII strings: nonempty and all characters
decimal digits. -/
def pyIsDigit (s : String) : Bool :=
  !s.data.isEmpty && s.data.all (fun c => c.isDigit)

/-- Model of int on a decimal digit string. -/
def strToNat (s : String) : Nat :=
  s.data.foldl (fun a c => a * 10 + (c.toNat - 48)) 0

/-- Model of str.strip: drop whitespace from both ends. -/
def pyStrip (s : String) : String :=
  String.mk (((s.data.dropWhile Char.isWhitespace).reverse.dropWhile
    Char.isWhitespace).reverse)

/-- get_active_character_sets, lines 37 to 54 of the source, as a function
of the four checkbox values, preserving the dictionary order numbers,
symbols, uppercase, lowercase. -/
def get_active_character_sets (n s u l : Bool) : List (List Char) :=
  (if n then [NUMBERS] else []) ++ (if s then [SYMBOLS] else []) ++
    (if u then [UPPERCASE_LETTERS] else []) ++ (if l then [LOWERCASE_LETTERS] else [])

/-- get_min_password_length, lines 57 to 65: the maximum of the constant 8
and the number of selected checkboxes. -/
def get_min_password_length (n s u l : Bool) : Nat :=
  max MIN_PASSWORD_LENGTH
    ((if n then 1 else 0) + (if s then 1 else 0) + (if u then 1 else 0) +
      (if l then 1 else 0))

/-- is_password_length_valid, lines 68 to 88: the validation result with
the message of the error box on failure. -/
def is_password_length_valid (length_input : String) (min_length : Nat) :
    Except String Unit :=
  if !(pyIsDigit length_input && decide (strToNat length_input > 0)) then
    Except.error ERROR_MESSAGE_INVALID_LENGTH
  else if strToNat length_input < min_length then
    Except.error ERROR_MESSAGE_MIN_LENGTH
  else if strToNat length_input > MAX_PASSWORD_LENGTH then
    Except.error ERROR_MESSAGE_TOO_LARGE
  else Except.ok ()

/-- generate_password, lines 110 to 131: strip the length input, validate,
collect the active sets, reject an empty selection, reject a length below
the number of selected groups, and otherwise generate.  The result is the
error message shown, or the password stored in the output variable. -/
def generate_password (r1 r2 r3 : Nat → Nat) (length_input : String)
    (n s u l : Bool) : Except String (List Char) :=
  let li := pyStrip length_input
  if li.data.isEmpty then Except.error ERROR_MESSAGE_EMPTY_LENGTH
  else
    let min_length := get_min_password_length n s u l
    match is_password_length_valid li min_length with
    | Except.error e => Except.error e
    | Except.ok _ =>
      let selected_sets := get_active_character_sets n s u l
      if selected_sets.isEmpty then Except.error ERROR_MESSAGE_NO_CHARSETS
      else
        let v := strToNat li
        if v < selected_sets.length then Except.error ERROR_MESSAGE_GROUP_MISMATCH
        else Except.ok (generate_password_with_charsets r1 r2 r3 selected_sets v)

/-- A fixed oracle for concrete evaluations. -/
def zeroOracle : Nat → Nat := fun _ => 0

/-- Sanity check of the embedding on a concrete evaluation. -/
theorem gpwc_digits_eight_len :
    (generate_password_with_charsets zeroOracle zeroOracle zeroOracle [NUMBERS] 8).length = 8 := by decide

/-- Every oracle draw of random.choice lands inside a nonempty list. -/
theorem choice_mem (r : Nat) {l : List Char} (h : l ≠ []) : choice r l ∈ l := by
  have hlen : 0 < l.length := List.length_pos.mpr h
  have hj : r % l.length < l.length := Nat.mod_lt _ hlen
  rw [choice, List.getD_eq_getElem l _ hj]
  exact List.getElem_mem hj

/-- One required character is drawn per selected set. -/
theorem required_chars_length (r : Nat → Nat) (sets : List (List Char)) :
    (required_chars r sets).length = sets.length := by
  induction sets generalizing r with
  | nil => rfl
  | cons cs rest ih => simp [required_chars, ih]

/-- Each nonempty selected set contributes a member to the required
characters. -/
theorem required_chars_covers (r : Nat → Nat) {sets : List (List Char)}
    {cs : List Char} (hmem : cs ∈ sets) (hne : cs ≠ []) :
    ∃ c, c ∈ required_chars r sets ∧ c ∈ cs := by
  induction sets generalizing r with
  | nil => cases hmem
  | cons hd rest ih =>
    rcases List.mem_cons.mp hmem with hcs | hcs
    · exact ⟨choice (r 0) hd, List.mem_cons_self _ _, hcs ▸ choice_mem (r 0) hne⟩
    · rcases ih (fun i => r (i + 1)) hcs with ⟨c, hc1, hc2⟩
      exact ⟨c, List.mem_cons_of_mem _ hc1, hc2⟩

/-- Every required character comes from one of the selected sets. -/
theorem required_chars_subset (r : Nat → Nat) {sets : List (List Char)}
    (hsets : ∀ cs ∈ sets, cs ≠ []) :
    ∀ c ∈ required_chars r sets, ∃ cs, cs ∈ sets ∧ c ∈ cs := by
  induction sets generalizing r with
  | nil => intro c hc; cases hc
  | cons hd rest ih =>
    intro c hc
    rcases List.mem_cons.mp hc with hc | hc
    · exact ⟨hd, List.mem_cons_self _ _,
        hc ▸ choice_mem (r 0) (hsets hd (List.mem_cons_self _ _))⟩
    · rcases ih (fun i => r (i + 1))
        (fun cs h => hsets cs (List.mem_cons_of_mem _ h)) c hc with ⟨cs, h1, h2⟩
      exact ⟨cs, List.mem_cons_of_mem _ h1, h2⟩

/-- random.choices draws exactly k characters. -/
theorem choices_length (r : Nat → Nat) (l : List Char) (k : Nat) :
    (choices r l k).length = k := by
  induction k generalizing r with
  | zero => rfl
  | succ k ih => simp [choices, ih]

/-- Every filler character comes from the pool it was drawn from. -/
theorem choices_subset (r : Nat → Nat) {l : List Char} (h : l ≠ []) (k : Nat) :
    ∀ c ∈ choices r l k, c ∈ l := by
  induction k generalizing r with
  | zero => intro c hc; cases hc
  | succ k ih =>
    intro c hc
    rcases List.mem_cons.mp hc with hc | hc
    · exact hc ▸ choice_mem (r 0) h
    · exact ih (fun i => r (i + 1)) c hc

/-- The fuelled shuffle body returns a permutation of its input whenever
the fuel covers the length of the list. -/
theorem shuffleGo_perm : ∀ (n : Nat) (r : Nat → Nat) (l : List Char),
    l.length ≤ n → (shuffleGo r n l).Perm l := by
  intro n
  induction n with
  | zero =>
    intro r l h
    have hl : l = [] := List.eq_nil_of_length_eq_zero (Nat.le_zero.mp h)
    subst hl; simp [shuffleGo]
  | succ f ih =>
    intro r l h
    cases l with
    | nil => simp [shuffleGo]
    | cons x xs =>
      have hlen : 0 < (x :: xs).length := by simp
      have hj : r 0 % (x :: xs).length < (x :: xs).length := Nat.mod_lt _ hlen
      have herase : ((x :: xs).eraseIdx (r 0 % (x :: xs).length)).length ≤ f := by
        have := List.length_eraseIdx_add_one hj
        omega
      have hrec := ih (fun i => r (i + 1)) ((x :: xs).eraseIdx (r 0 % (x :: xs).length)) herase
      have hstep : ((x :: xs)[r 0 % (x :: xs).length] ::
          (x :: xs).eraseIdx (r 0 % (x :: xs).length)).Perm (x :: xs) := by
        conv_rhs => rw [← List.take_append_drop (r 0 % (x :: xs).length) (x :: xs)]
        rw [List.drop_eq_getElem_cons hj, List.eraseIdx_eq_take_drop_succ]
        exact List.perm_middle.symm
      show ((x :: xs).getD (r 0 % (x :: xs).length) (Char.ofNat 32) ::
          shuffleGo (fun i => r (i + 1)) f ((x :: xs).eraseIdx (r 0 % (x :: xs).length))).Perm (x :: xs)
      rw [List.getD_eq_getElem _ _ hj]
      exact (hrec.cons _).trans hstep

/-- The shuffle model permutes its input. -/
theorem shuffle_perm (r : Nat → Nat) (l : List Char) : (shuffle r l).Perm l :=
  shuffleGo_perm l.length r l (Nat.le_refl _)

/-- The four alphabets of the source are nonempty. -/
theorem alphabet_ne_nil {cs : List Char}
    (h : cs ∈ [NUMBERS, SYMBOLS, UPPERCASE_LETTERS, LOWERCASE_LETTERS]) :
    cs ≠ [] := by
  simp only [List.mem_cons, List.not_mem_nil, or_false] at h
  rcases h with h | h | h | h <;> subst h <;> decide

/-- The password has the requested length whenever at most that many sets
are selected. -/
theorem generate_password_with_charsets_len (r1 r2 r3 : Nat → Nat)
    (sets : List (List Char)) (len : Nat) (h : sets.length ≤ len) :
    (generate_password_with_charsets r1 r2 r3 sets len).length = len := by
  unfold generate_password_with_charsets
  rw [(shuffle_perm r3 _).length_eq, List.length_append, required_chars_length,
    choices_length]
  omega

/-- C1: for every nonempty list of selected character classes and every
length between max of 8 and the number of selected classes and 128,
generate_password_with_charsets returns exactly that many characters and
the result contains at least one character from each selected class. -/
theorem generate_password_with_charsets_length_and_coverage
    (r1 r2 r3 : Nat → Nat) (sets : List (List Char)) (len : Nat)
    (hne : sets ≠ [])
    (hsets : ∀ cs ∈ sets, cs ∈ [NUMBERS, SYMBOLS, UPPERCASE_LETTERS, LOWERCASE_LETTERS])
    (hlo : max MIN_PASSWORD_LENGTH sets.length ≤ len)
    (hhi : len ≤ MAX_PASSWORD_LENGTH) :
    (generate_password_with_charsets r1 r2 r3 sets len).length = len ∧
    ∀ cs ∈ sets, ∃ c, c ∈ generate_password_with_charsets r1 r2 r3 sets len ∧ c ∈ cs := by
  have hcount : sets.length ≤ len := le_trans (le_max_right _ _) hlo
  refine ⟨generate_password_with_charsets_len r1 r2 r3 sets len hcount, ?_⟩
  intro cs hcs
  have hcne := alphabet_ne_nil (hsets cs hcs)
  rcases required_chars_covers r1 hcs hcne with ⟨c, h1, h2⟩
  refine ⟨c, ?_, h2⟩
  unfold generate_password_with_charsets
  exact (shuffle_perm r3 _).mem_iff.mpr (List.mem_append_left _ h1)

/-- Witness for C1 at one selected class and length 8. -/
theorem generate_password_with_charsets_length_and_coverage_witness :
    (generate_password_with_charsets zeroOracle zeroOracle zeroOracle [NUMBERS] 8).length = 8 ∧
    ∃ c, c ∈ generate_password_with_charsets zeroOracle zeroOracle zeroOracle [NUMBERS] 8 ∧
      c ∈ NUMBERS :=
  ⟨(generate_password_with_charsets_length_and_coverage zeroOracle zeroOracle zeroOracle
      [NUMBERS] 8 (by decide) (by decide) (by decide) (by decide)).1,
   (generate_password_with_charsets_length_and_coverage zeroOracle zeroOracle zeroOracle
      [NUMBERS] 8 (by decide) (by decide) (by decide) (by decide)).2 NUMBERS (by decide)⟩

/-- C6: under the same validity hypotheses every character of the output
lies in the union of the selected alphabets. -/
theorem generate_password_with_charsets_chars_in_union
    (r1 r2 r3 : Nat → Nat) (sets : List (List Char)) (len : Nat)
    (hne : sets ≠ [])
    (hsets : ∀ cs ∈ sets, cs ∈ [NUMBERS, SYMBOLS, UPPERCASE_LETTERS, LOWERCASE_LETTERS])
    (hlo : max MIN_PASSWORD_LENGTH sets.length ≤ len)
    (hhi : len ≤ MAX_PASSWORD_LENGTH) :
    ∀ c ∈ generate_password_with_charsets r1 r2 r3 sets len, c ∈ sets.flatten := by
  intro c hc
  unfold generate_password_with_charsets at hc
  have hc2 := (shuffle_perm r3 _).mem_iff.mp hc
  rcases List.mem_append.mp hc2 with h | h
  · rcases required_chars_subset r1 (fun cs h => alphabet_ne_nil (hsets cs h)) c h with
      ⟨cs, h1, h2⟩
    exact List.mem_flatten.mpr ⟨cs, h1, h2⟩
  · have hfl : sets.flatten ≠ [] := by
      cases sets with
      | nil => exact absurd rfl hne
      | cons hd rest =>
        rcases List.exists_mem_of_ne_nil hd
          (alphabet_ne_nil (hsets hd (List.mem_cons_self _ _))) with ⟨x, hx⟩
        exact List.ne_nil_of_mem (List.mem_flatten.mpr ⟨hd, List.mem_cons_self _ _, hx⟩)
    exact choices_subset r2 hfl _ c h

/-- Witness for C6: the digit zero drawn by the zero oracle stays inside
the union of the selected alphabets. -/
theorem generate_password_with_charsets_chars_in_union_witness :
    Char.ofNat 48 ∈ ([NUMBERS] : List (List Char)).flatten :=
  generate_password_with_charsets_chars_in_union zeroOracle zeroOracle zeroOracle
    [NUMBERS] 8 (by decide) (by decide) (by decide) (by decide) (Char.ofNat 48) (by decide)

/-- The number of active sets equals the number of checked boxes. -/
theorem get_active_character_sets_length (n s u l : Bool) :
    (get_active_character_sets n s u l).length =
      (if n then 1 else 0) + (if s then 1 else 0) + (if u then 1 else 0) +
        (if l then 1 else 0) := by
  cases n <;> cases s <;> cases u <;> cases l <;> rfl

/-- With at most four checkboxes the computed minimum is always the
constant 8. -/
theorem get_min_password_length_eq_eight (n s u l : Bool) :
    get_min_password_length n s u l = 8 := by
  cases n <;> cases s <;> cases u <;> cases l <;> rfl

/-- The number of active sets never exceeds the computed minimum. -/
theorem get_active_le_get_min (n s u l : Bool) :
    (get_active_character_sets n s u l).length ≤ get_min_password_length n s u l := by
  cases n <;> cases s <;> cases u <;> cases l <;> decide

/-- Forward direction of the length validation: all checks passing yields
the ok result. -/
theorem is_password_length_valid_ok_of (li : String) (min_length : Nat)
    (h1 : pyIsDigit li = true) (h2 : 0 < strToNat li)
    (h3 : min_length ≤ strToNat li) (h4 : strToNat li ≤ MAX_PASSWORD_LENGTH) :
    is_password_length_valid li min_length = Except.ok () := by
  simp [is_password_length_valid, h1, h2, Nat.not_lt.mpr h3, Nat.not_lt.mpr h4]

/-- Inversion of the length validation: the ok result implies every check
passed. -/
theorem is_password_length_valid_ok_inv {li : String} {min_length : Nat}
    (h : is_password_length_valid li min_length = Except.ok ()) :
    pyIsDigit li = true ∧ 0 < strToNat li ∧ min_length ≤ strToNat li ∧
      strToNat li ≤ MAX_PASSWORD_LENGTH := by
  unfold is_password_length_valid at h
  split at h
  · simp at h
  · split at h
    · simp at h
    · split at h
      · simp at h
      · rename_i hc1 hc2 hc3
        have hab : (pyIsDigit li && decide (strToNat li > 0)) = true := by
          revert hc1; cases h : (pyIsDigit li && decide (strToNat li > 0)) <;> simp
        simp only [Bool.and_eq_true, decide_eq_true_eq] at hab
        exact ⟨hab.1, hab.2, Nat.not_lt.mp hc2, Nat.not_lt.mp hc3⟩

/-- The validation never produces the group mismatch message. -/
theorem is_password_length_valid_ne_group (li : String) (min_length : Nat) :
    is_password_length_valid li min_length ≠
      Except.error ERROR_MESSAGE_GROUP_MISMATCH := by
  unfold is_password_length_valid
  split
  · intro h; injection h with h; exact absurd h (by decide)
  · split
    · intro h; injection h with h; exact absurd h (by decide)
    · split
      · intro h; injection h with h; exact absurd h (by decide)
      · intro h; cases h

/-- When every validation passes, generate_password stores the composed
password. -/
theorem generate_password_ok (r1 r2 r3 : Nat → Nat) (t : String) (n s u l : Bool)
    (h1 : pyIsDigit (pyStrip t) = true)
    (h2 : 0 < strToNat (pyStrip t))
    (h3 : get_min_password_length n s u l ≤ strToNat (pyStrip t))
    (h4 : strToNat (pyStrip t) ≤ MAX_PASSWORD_LENGTH)
    (h5 : get_active_character_sets n s u l ≠ []) :
    generate_password r1 r2 r3 t n s u l =
      Except.ok (generate_password_with_charsets r1 r2 r3
        (get_active_character_sets n s u l) (strToNat (pyStrip t))) := by
  have hval := is_password_length_valid_ok_of (pyStrip t) _ h1 h2 h3 h4
  have hemp : (pyStrip t).data.isEmpty = false := by
    unfold pyIsDigit at h1
    simp only [Bool.and_eq_true] at h1
    simpa using h1.1
  have hlen : ¬ strToNat (pyStrip t) < (get_active_character_sets n s u l).length := by
    have := get_active_le_get_min n s u l
    omega
  simp [generate_password, hemp, hval, h5, hlen]

/-- C8: length validation boundary cases.  With at least one class
selected, length 8 (the value of max of 8 and the class count) succeeds
and yields an 8 character password; 129 is rejected as too large; 0 and
any non numeric string are rejected; with no class selected every request
is rejected, and every rejection returns an error and no password. -/
theorem generate_password_boundary_cases (r1 r2 r3 : Nat → Nat) (n s u l : Bool)
    (hsel : get_active_character_sets n s u l ≠ []) :
    (∃ p, generate_password r1 r2 r3 "8" n s u l = Except.ok p ∧ p.length = 8) ∧
    generate_password r1 r2 r3 "129" n s u l = Except.error ERROR_MESSAGE_TOO_LARGE ∧
    generate_password r1 r2 r3 "0" n s u l = Except.error ERROR_MESSAGE_INVALID_LENGTH ∧
    (∀ t, pyIsDigit (pyStrip t) = false →
      ∃ e, generate_password r1 r2 r3 t n s u l = Except.error e) ∧
    (∀ t (q1 q2 q3 : Nat → Nat) (p : List Char),
      generate_password q1 q2 q3 t false false false false ≠ Except.ok p) := by
  refine ⟨?_, ?_, ?_, ?_, ?_⟩
  · have h8 : pyStrip "8" = "8" := by rfl
    have hok := generate_password_ok r1 r2 r3 "8" n s u l (by rw [h8]; rfl)
      (by rw [h8]; decide) (by rw [h8, get_min_password_length_eq_eight]; decide)
      (by rw [h8]; decide) hsel
    refine ⟨_, hok, ?_⟩
    apply generate_password_with_charsets_len
    rw [h8]
    calc (get_active_character_sets n s u l).length
        ≤ get_min_password_length n s u l := get_active_le_get_min n s u l
      _ = 8 := get_min_password_length_eq_eight n s u l
      _ ≤ strToNat "8" := by decide
  · simp only [generate_password, get_min_password_length_eq_eight]
    rfl
  · simp only [generate_password]
    rfl
  · intro t hdig
    cases hemp : (pyStrip t).data.isEmpty with
    | true => exact ⟨ERROR_MESSAGE_EMPTY_LENGTH, by simp [generate_password, hemp]⟩
    | false =>
      refine ⟨ERROR_MESSAGE_INVALID_LENGTH, ?_⟩
      simp [generate_password, hemp, is_password_length_valid, hdig]
  · intro t q1 q2 q3 p
    simp only [generate_password]
    split
    · simp
    · split
      · simp
      · simp [get_active_character_sets]

/-- Witness for C8 with the numbers class selected. -/
theorem generate_password_boundary_cases_witness :
    (∃ p, generate_password zeroOracle zeroOracle zeroOracle "8" true false false false =
        Except.ok p ∧ p.length = 8) ∧
    generate_password zeroOracle zeroOracle zeroOracle "129" true false false false =
      Except.error ERROR_MESSAGE_TOO_LARGE ∧
    generate_password zeroOracle zeroOracle zeroOracle "0" true false false false =
      Except.error ERROR_MESSAGE_INVALID_LENGTH ∧
    (∃ e, generate_password zeroOracle zeroOracle zeroOracle "12a" true false false false =
      Except.error e) ∧
    ∀ p, generate_password zeroOracle zeroOracle zeroOracle "12" false false false false ≠
      Except.ok p := by
  have h := generate_password_boundary_cases zeroOracle zeroOracle zeroOracle
    true false false false (by decide)
  exact ⟨h.1, h.2.1, h.2.2.1, h.2.2.2.1 "12a" (by decide),
    h.2.2.2.2 "12" zeroOracle zeroOracle zeroOracle⟩

/-- C9 counterexample: a request whose length 2 is smaller than the three
selected classes is rejected with the minimum length message, not the
group mismatch message. -/
theorem generate_password_group_mismatch_counterexample :
    generate_password zeroOracle zeroOracle zeroOracle "2" true true true false =
      Except.error ERROR_MESSAGE_MIN_LENGTH ∧
    ERROR_MESSAGE_MIN_LENGTH ≠ ERROR_MESSAGE_GROUP_MISMATCH :=
  ⟨by rfl, by decide⟩

/-- C9 amended: a numeric requested length smaller than the number of
selected classes is rejected, but by the earlier invalid length or
minimum length check; the group mismatch branch, whose message is indeed
distinct, is unreachable for every input. -/
theorem generate_password_group_mismatch_unreachable (r1 r2 r3 : Nat → Nat)
    (t : String) (n s u l : Bool) :
    (pyIsDigit (pyStrip t) = true →
      strToNat (pyStrip t) < (get_active_character_sets n s u l).length →
      generate_password r1 r2 r3 t n s u l = Except.error ERROR_MESSAGE_MIN_LENGTH ∨
      generate_password r1 r2 r3 t n s u l = Except.error ERROR_MESSAGE_INVALID_LENGTH) ∧
    generate_password r1 r2 r3 t n s u l ≠ Except.error ERROR_MESSAGE_GROUP_MISMATCH := by
  constructor
  · intro hdig hlt
    have hemp : (pyStrip t).data.isEmpty = false := by
      unfold pyIsDigit at hdig
      simp only [Bool.and_eq_true] at hdig
      simpa using hdig.1
    have hmin : get_min_password_length n s u l = 8 :=
      get_min_password_length_eq_eight n s u l
    have hcount : (get_active_character_sets n s u l).length ≤ 8 := by
      have := get_active_le_get_min n s u l; omega
    cases Nat.eq_zero_or_pos (strToNat (pyStrip t)) with
    | inl hzero =>
      right
      simp [generate_password, hemp, is_password_length_valid, hdig, hzero]
    | inr hpos =>
      left
      have hlt8 : strToNat (pyStrip t) < get_min_password_length n s u l := by omega
      simp [generate_password, hemp, is_password_length_valid, hdig, hpos, hlt8]
  · intro hgm
    simp only [generate_password] at hgm
    split at hgm
    · injection hgm with h; exact absurd h (by decide)
    · split at hgm
      · rename_i e heq
        injection hgm with h
        exact is_password_length_valid_ne_group _ _ (h ▸ heq)
      · rename_i heq
        split at hgm
        · injection hgm with h; exact absurd h (by decide)
        · split at hgm
          · rename_i hne hlt
            rcases is_password_length_valid_ok_inv heq with ⟨_, _, hge, _⟩
            have h1 := get_active_le_get_min n s u l
            omega
          · cases hgm

/-- Witness for C9 amended at a concrete short numeric length. -/
theorem generate_password_group_mismatch_unreachable_witness :
    (generate_password zeroOracle zeroOracle zeroOracle "2" true true true false =
        Except.error ERROR_MESSAGE_MIN_LENGTH ∨
      generate_password zeroOracle zeroOracle zeroOracle "2" true true true false =
        Except.error ERROR_MESSAGE_INVALID_LENGTH) ∧
    generate_password zeroOracle zeroOracle zeroOracle "2" true true true false ≠
      Except.error ERROR_MESSAGE_GROUP_MISMATCH := by
  have h := generate_password_group_mismatch_unreachable zeroOracle zeroOracle zeroOracle
    "2" true true true false
  exact ⟨h.1 (by decide) (by decide), h.2⟩

/-- Sanity check: a padded valid length generates. -/
theorem generate_password_strip_sanity :
    generate_password zeroOracle zeroOracle zeroOracle " 8 " true false false false =
    Except.ok (generate_password_with_charsets zeroOracle zeroOracle zeroOracle [NUMBERS] 8) := by rfl

/-- Sanity check: a short length is rejected with the minimum message. -/
theorem generate_password_short_sanity :
    generate_password zeroOracle zeroOracle zeroOracle "2" true true true false =
    Except.error ERROR_MESSAGE_MIN_LENGTH := by rfl

/-- Model of str.lower on ASCII strings. -/
def pyLower (s : String) : String := String.mk (s.data.map Char.toLower)

/-- A loaded quiz question record: fields question, answer, options and
difficulty of the JSON objects consumed by src/triviaGame/main.py. -/
structure Question where
  question : String
  answer : String
  options : List String
  difficulty : String
deriving DecidableEq

/-- The three way result of check_answer, lines 97 to 130: True, False, or
the string marking invalid input. -/
inductive AnswerResult where
  | correct
  | incorrect
  | invalid
deriving DecidableEq

/-- check_answer, lines 117 to 130: reject anything that is not a numeral
between 1 and the option count, otherwise grade the chosen option text
against the correct answer, case insensitively. -/
def check_answer (user_answer correct_answer : String) (options : List String) :
    AnswerResult :=
  if ¬ pyIsDigit user_answer = true ∨ strToNat user_answer > options.length ∨
      strToNat user_answer < 1 then
    AnswerResult.invalid
  else if pyLower (options.getD (strToNat user_answer - 1) "") = pyLower correct_answer then
    AnswerResult.correct
  else AnswerResult.incorrect

/-- Observable console events of a quiz run. -/
inductive Ev where
  | present (qn : Nat) (q : Question)
  | enterValid
  | correctMsg
  | wrongMsg (ans : String)
  | livesLeft (n : Int)
  | lost
  | invalidRestart
  | thanks
deriving DecidableEq

/-- The line printed by check_answer for each grading outcome. -/
def answer_events (r : AnswerResult) (correct_answer : String) : List Ev :=
  match r with
  | AnswerResult.invalid => [Ev.enterValid]
  | AnswerResult.correct => [Ev.correctMsg]
  | AnswerResult.incorrect => [Ev.wrongMsg correct_answer]

/-- categorize_questions, lines 25 to 44, applied to the loaded question
list (file loading itself is out of scope): the three filters by
difficulty, case insensitively, preserving file order. -/
def categorize_questions (questions : List Question) :
    List Question × List Question × List Question :=
  (questions.filter (fun q => pyLower q.difficulty == "easy"),
   questions.filter (fun q => pyLower q.difficulty == "medium"),
   questions.filter (fun q => pyLower q.difficulty == "hard"))

/-- The sequence total_questions = easy + medium + hard of line 58. -/
def total_questions (questions : List Question) : List Question :=
  (categorize_questions questions).1 ++ (categorize_questions questions).2.1 ++
    (categorize_questions questions).2.2

/-- The LIVES constant of line 5. -/
def LIVES : Int := 3

/-- Result of a quiz run: the console event trace, the unconsumed input
lines, whether the run ended normally (false models the program dying on
exhausted input, or exhausted fuel), and the final value of the lives
variable of the outermost game frame. -/
structure GOut where
  trace : List Ev
  remaining : List String
  ok : Bool
  lives : Int
deriving DecidableEq

/-- The inner re-prompt loop of lines 89 to 92: while the answer is
invalid input, print the question again, read and grade a fresh answer.
Returns its events and, on normal exit, the final grading with the rest of
the input. -/
def invalidLoop (q : Question) (qn : Nat) :
    Nat → List String → List Ev × Option (AnswerResult × List String)
  | 0, _ => ([], none)
  | _ + 1, [] => ([Ev.present qn q], none)
  | f + 1, a :: rest =>
    let r := check_answer (pyLower a) (pyLower q.answer) q.options
    match r with
    | AnswerResult.invalid =>
      let next := invalidLoop q qn f rest
      (Ev.present qn q :: (answer_events AnswerResult.invalid (pyLower q.answer) ++ next.1),
        next.2)
    | r2 => (Ev.present qn q :: answer_events r2 (pyLower q.answer), some (r2, rest))

/-- The restart prompt loop of lines 74 to 78: read until a y or n answer,
flagging every other answer. -/
def restartLoop : Nat → List String → List Ev × Option (Bool × List String)
  | 0, _ => ([], none)
  | _ + 1, [] => ([], none)
  | f + 1, a :: rest =>
    if pyLower a = "y" ∨ pyLower a = "n" then ([], some (pyLower a = "y", rest))
    else
      let next := restartLoop f rest
      (Ev.invalidRestart :: next.1, next.2)

/-- The game loop of lines 46 to 95, fuelled.  Arguments: remaining fuel,
the full question sequence (restart replays it), the questions still to
ask, the question_number counter, the lives counter, the pending input
lines.  The restart answer y runs a fresh game over the full sequence
with lives reset to LIVES; when that inner frame returns, the outer loop
resumes, as the source does after the recursive call on line 80, with the
question number stepped once in the branch of line 72 and once more by
the while else of line 95. -/
def gameLoop : Nat → List Question → List Question → Nat → Int → List String → GOut
  | _, _, [], _, lives, inputs => ⟨[], inputs, true, lives⟩
  | 0, _, _ :: _, _, lives, _ => ⟨[], [], false, lives⟩
  | _ + 1, _, q :: _, qn, lives, [] => ⟨[Ev.present qn q], [], false, lives⟩
  | f + 1, total, q :: rest, qn, lives, a :: inputs =>
    let r := check_answer (pyLower a) (pyLower q.answer) q.options
    let evs := Ev.present qn q :: answer_events r (pyLower q.answer)
    match r with
    | AnswerResult.correct =>
      let tail := gameLoop f total rest (qn + 1) lives inputs
      ⟨evs ++ tail.trace, tail.remaining, tail.ok, tail.lives⟩
    | AnswerResult.incorrect =>
      if lives - 1 = 0 then
        match restartLoop f inputs with
        | (rtr, none) => ⟨evs ++ Ev.lost :: rtr, [], false, lives - 1⟩
        | (rtr, some (true, rest2)) =>
          let inner := gameLoop f total total 1 LIVES rest2
          if inner.ok then
            let tail := gameLoop f total rest (qn + 2) (lives - 1) inner.remaining
            ⟨evs ++ Ev.lost :: (rtr ++ inner.trace ++ tail.trace), tail.remaining,
              tail.ok, tail.lives⟩
          else
            ⟨evs ++ Ev.lost :: (rtr ++ inner.trace), inner.remaining, false, lives - 1⟩
        | (rtr, some (false, rest2)) =>
          ⟨evs ++ Ev.lost :: (rtr ++ [Ev.thanks]), rest2, true, lives - 1⟩
      else
        let tail := gameLoop f total rest (qn + 1) (lives - 1) inputs
        ⟨evs ++ Ev.livesLeft (lives - 1) :: tail.trace, tail.remaining, tail.ok, tail.lives⟩
    | AnswerResult.invalid =>
      match invalidLoop q qn f inputs with
      | (itr, none) => ⟨evs ++ itr, [], false, lives⟩
      | (itr, some (_, rest2)) =>
        let tail := gameLoop f total rest (qn + 1) lives rest2
        ⟨evs ++ itr ++ tail.trace, tail.remaining, tail.ok, tail.lives⟩

/-- A full quiz run: game(LIVES) of line 162 over a loaded question list
and a script of input lines. -/
def gameRun (fuel : Nat) (questions : List Question) (inputs : List String) : GOut :=
  gameLoop fuel (total_questions questions) (total_questions questions) 1 LIVES inputs

def qParis : Question :=
  ⟨"what is the capital of france", "Paris", ["Paris", "London", "Berlin"], "easy"⟩

/-- Sanity checks of the grading on the example of the specification. -/
theorem check_answer_examples :
    check_answer "1" (pyLower "Paris") qParis.options = AnswerResult.correct ∧
    check_answer "5" (pyLower "Paris") qParis.options = AnswerResult.invalid ∧
    check_answer "2" (pyLower "Paris") qParis.options = AnswerResult.incorrect := by decide

/-- Sanity check of a one question run answered correctly. -/
theorem gameRun_one_correct :
    gameRun 10 [qParis] ["1"] =
    ⟨[Ev.present 1 qParis, Ev.correctMsg], [], true, 3⟩ := by decide

/-- Every event of the re-prompt loop is a presentation of the same
question or a grading message; in particular no lives message and no game
over prompt is ever produced there. -/
theorem invalidLoop_events (q : Question) (qn : Nat) :
    ∀ (f : Nat) (inputs : List String) (e : Ev), e ∈ (invalidLoop q qn f inputs).1 →
      e = Ev.present qn q ∨ e = Ev.enterValid ∨ e = Ev.correctMsg ∨
        ∃ s, e = Ev.wrongMsg s := by
  intro f
  induction f with
  | zero => intro inputs e he; simp [invalidLoop] at he
  | succ f ih =>
    intro inputs e he
    cases inputs with
    | nil =>
      simp [invalidLoop] at he
      exact Or.inl he
    | cons a rest =>
      cases hr : check_answer (pyLower a) (pyLower q.answer) q.options with
      | correct =>
        simp [invalidLoop, hr, answer_events] at he
        rcases he with rfl | rfl
        · exact Or.inl rfl
        · exact Or.inr (Or.inr (Or.inl rfl))
      | incorrect =>
        simp [invalidLoop, hr, answer_events] at he
        rcases he with rfl | rfl
        · exact Or.inl rfl
        · exact Or.inr (Or.inr (Or.inr ⟨_, rfl⟩))
      | invalid =>
        simp [invalidLoop, hr, answer_events] at he
        rcases he with rfl | rfl | he2
        · exact Or.inl rfl
        · exact Or.inr (Or.inl rfl)
        · exact ih rest e he2

/-- Every event of the restart prompt loop is the invalid response
notice. -/
theorem restartLoop_events : ∀ (f : Nat) (inputs : List String) (e : Ev),
    e ∈ (restartLoop f inputs).1 → e = Ev.invalidRestart := by
  intro f
  induction f with
  | zero => intro inputs e he; simp [restartLoop] at he
  | succ f ih =>
    intro inputs e he
    cases inputs with
    | nil => simp [restartLoop] at he
    | cons a rest =>
      by_cases hy : pyLower a = "y" ∨ pyLower a = "n"
      · simp [restartLoop, hy] at he
      · simp only [restartLoop, if_neg hy] at he
        rcases List.mem_cons.mp he with h | h
        · exact h
        · exact ih rest e h

/-- Soundness of the run trace: a remaining lives message is never zero
(reaching zero always takes the game over branch instead), and every
question ever presented belongs to the full question sequence. -/
theorem gameLoop_trace_events : ∀ (f : Nat) (total rem : List Question) (qn : Nat)
    (lives : Int) (inputs : List String),
    (∀ q ∈ rem, q ∈ total) →
    ∀ e ∈ (gameLoop f total rem qn lives inputs).trace,
      (∀ m : Int, e = Ev.livesLeft m → m ≠ 0) ∧
      ∀ k q2, e = Ev.present k q2 → q2 ∈ total := by
  intro f
  induction f with
  | zero =>
    intro total rem qn lives inputs hsub e he
    cases rem with
    | nil => simp [gameLoop] at he
    | cons q rest => simp [gameLoop] at he
  | succ f ih =>
    intro total rem qn lives inputs hsub e he
    cases rem with
    | nil => simp [gameLoop] at he
    | cons q rest =>
      have hq : q ∈ total := hsub q (List.mem_cons_self _ _)
      have hrest : ∀ q2 ∈ rest, q2 ∈ total := fun q2 h => hsub q2 (List.mem_cons_of_mem _ h)
      cases inputs with
      | nil =>
        simp [gameLoop] at he
        subst he
        exact ⟨fun m h => (nomatch h), fun k q2 h => (Ev.present.inj h).2 ▸ hq⟩
      | cons a inputs2 =>
        cases hr : check_answer (pyLower a) (pyLower q.answer) q.options with
        | correct =>
          simp [gameLoop, hr, answer_events] at he
          rcases he with rfl | rfl | he2
          · exact ⟨fun m h => (nomatch h), fun k q2 h => (Ev.present.inj h).2 ▸ hq⟩
          · exact ⟨fun m h => (nomatch h), fun k q2 h => nomatch h⟩
          · exact ih total rest (qn + 1) lives inputs2 hrest e he2
        | incorrect =>
          by_cases hl : lives - 1 = 0
          · rcases hrl : restartLoop f inputs2 with ⟨rtr, out⟩
            cases out with
            | none =>
              simp [gameLoop, hr, hl, hrl, answer_events] at he
              rcases he with rfl | rfl | rfl | he2
              · exact ⟨fun m h => (nomatch h), fun k q2 h => (Ev.present.inj h).2 ▸ hq⟩
              · exact ⟨fun m h => (nomatch h), fun k q2 h => nomatch h⟩
              · exact ⟨fun m h => (nomatch h), fun k q2 h => nomatch h⟩
              · have := restartLoop_events f inputs2 e (by rw [hrl]; exact he2)
                subst this
                exact ⟨fun m h => (nomatch h), fun k q2 h => nomatch h⟩
            | some b =>
              rcases b with ⟨b, rest3⟩
              cases b with
              | true =>
                cases hok : (gameLoop f total total 1 LIVES rest3).ok with
                | true =>
                  simp [gameLoop, hr, hl, hrl, hok, answer_events] at he
                  rcases he with rfl | rfl | rfl | he2 | he2 | he2
                  · exact ⟨fun m h => (nomatch h), fun k q2 h => (Ev.present.inj h).2 ▸ hq⟩
                  · exact ⟨fun m h => (nomatch h), fun k q2 h => nomatch h⟩
                  · exact ⟨fun m h => (nomatch h), fun k q2 h => nomatch h⟩
                  · have := restartLoop_events f inputs2 e (by rw [hrl]; exact he2)
                    subst this
                    exact ⟨fun m h => (nomatch h), fun k q2 h => nomatch h⟩
                  · exact ih total total 1 LIVES rest3 (fun q2 h => h) e he2
                  · exact ih total rest (qn + 2) 0 _ hrest e he2
                | false =>
                  simp [gameLoop, hr, hl, hrl, hok, answer_events] at he
                  rcases he with rfl | rfl | rfl | he2 | he2
                  · exact ⟨fun m h => (nomatch h), fun k q2 h => (Ev.present.inj h).2 ▸ hq⟩
                  · exact ⟨fun m h => (nomatch h), fun k q2 h => nomatch h⟩
                  · exact ⟨fun m h => (nomatch h), fun k q2 h => nomatch h⟩
                  · have := restartLoop_events f inputs2 e (by rw [hrl]; exact he2)
                    subst this
                    exact ⟨fun m h => (nomatch h), fun k q2 h => nomatch h⟩
                  · exact ih total total 1 LIVES rest3 (fun q2 h => h) e he2
              | false =>
                simp [gameLoop, hr, hl, hrl, answer_events] at he
                rcases he with rfl | rfl | rfl | he2 | rfl
                · exact ⟨fun m h => (nomatch h), fun k q2 h => (Ev.present.inj h).2 ▸ hq⟩
                · exact ⟨fun m h => (nomatch h), fun k q2 h => nomatch h⟩
                · exact ⟨fun m h => (nomatch h), fun k q2 h => nomatch h⟩
                · have := restartLoop_events f inputs2 e (by rw [hrl]; exact he2)
                  subst this
                  exact ⟨fun m h => (nomatch h), fun k q2 h => nomatch h⟩
                · exact ⟨fun m h => (nomatch h), fun k q2 h => nomatch h⟩
          · simp [gameLoop, hr, hl, answer_events] at he
            rcases he with rfl | rfl | rfl | he2
            · exact ⟨fun m h => (nomatch h), fun k q2 h => (Ev.present.inj h).2 ▸ hq⟩
            · exact ⟨fun m h => (nomatch h), fun k q2 h => nomatch h⟩
            · exact ⟨fun m h => Ev.livesLeft.inj h ▸ hl, fun k q2 h => nomatch h⟩
            · exact ih total rest (qn + 1) (lives - 1) inputs2 hrest e he2
        | invalid =>
          rcases hil : invalidLoop q qn f inputs2 with ⟨itr, out⟩
          cases out with
          | none =>
            simp [gameLoop, hr, hil, answer_events] at he
            rcases he with rfl | rfl | he2
            · exact ⟨fun m h => (nomatch h), fun k q2 h => (Ev.present.inj h).2 ▸ hq⟩
            · exact ⟨fun m h => (nomatch h), fun k q2 h => nomatch h⟩
            · have := invalidLoop_events q qn f inputs2 e (by rw [hil]; exact he2)
              rcases this with rfl | rfl | rfl | ⟨s2, rfl⟩
              · exact ⟨fun m h => (nomatch h), fun k q2 h => (Ev.present.inj h).2 ▸ hq⟩
              · exact ⟨fun m h => (nomatch h), fun k q2 h => nomatch h⟩
              · exact ⟨fun m h => (nomatch h), fun k q2 h => nomatch h⟩
              · exact ⟨fun m h => (nomatch h), fun k q2 h => nomatch h⟩
          | some p =>
            rcases p with ⟨r2, rest3⟩
            simp [gameLoop, hr, hil, answer_events] at he
            rcases he with rfl | rfl | he2 | he2
            · exact ⟨fun m h => (nomatch h), fun k q2 h => (Ev.present.inj h).2 ▸ hq⟩
            · exact ⟨fun m h => (nomatch h), fun k q2 h => nomatch h⟩
            · have := invalidLoop_events q qn f inputs2 e (by rw [hil]; exact he2)
              rcases this with rfl | rfl | rfl | ⟨s2, rfl⟩
              · exact ⟨fun m h => (nomatch h), fun k q2 h => (Ev.present.inj h).2 ▸ hq⟩
              · exact ⟨fun m h => (nomatch h), fun k q2 h => nomatch h⟩
              · exact ⟨fun m h => (nomatch h), fun k q2 h => nomatch h⟩
              · exact ⟨fun m h => (nomatch h), fun k q2 h => nomatch h⟩
            · exact ih total rest (qn + 1) lives rest3 hrest e he2

def qEasy2 : Question := ⟨"second question", "A", ["A", "B"], "easy"⟩

def qMedium : Question := ⟨"third question", "A", ["A", "B"], "medium"⟩

def qHard : Question := ⟨"fourth question", "A", ["A", "B"], "hard"⟩

/-- C7: whenever the lives counter reaches zero the game over prompt is
triggered.  Part one: no reachable trace ever announces zero remaining
lives, because reaching zero always takes the game over branch.  Part
two: when a wrong first answer drops lives to zero, the game over prompt
is the very next event after the grading message, before any further
question can be presented. -/
theorem quiz_game_over_on_zero_lives :
    (∀ (fuel : Nat) (questions : List Question) (inputs : List String),
       Ev.livesLeft 0 ∉ (gameRun fuel questions inputs).trace) ∧
    (∀ (f : Nat) (total : List Question) (q : Question) (rest : List Question)
       (qn : Nat) (lives : Int) (a : String) (inputs : List String),
       check_answer (pyLower a) (pyLower q.answer) q.options = AnswerResult.incorrect →
       lives - 1 = 0 →
       ∃ tl, (gameLoop (f + 1) total (q :: rest) qn lives (a :: inputs)).trace =
         Ev.present qn q :: Ev.wrongMsg (pyLower q.answer) :: Ev.lost :: tl) := by
  constructor
  · intro fuel questions inputs hmem
    have := gameLoop_trace_events fuel (total_questions questions)
      (total_questions questions) 1 LIVES inputs (fun q h => h) (Ev.livesLeft 0) hmem
    exact this.1 0 rfl rfl
  · intro f total q rest qn lives a inputs hr hl
    rcases hrl : restartLoop f inputs with ⟨rtr, out⟩
    cases out with
    | none => exact ⟨rtr, by simp [gameLoop, hr, hl, hrl, answer_events]⟩
    | some p =>
      rcases p with ⟨b, rest3⟩
      cases b with
      | true =>
        cases hok : (gameLoop f total total 1 LIVES rest3).ok with
        | true =>
          exact ⟨rtr ++ ((gameLoop f total total 1 LIVES rest3).trace ++
              (gameLoop f total rest (qn + 2) 0
                (gameLoop f total total 1 LIVES rest3).remaining).trace),
            by simp [gameLoop, hr, hl, hrl, hok, answer_events]⟩
        | false =>
          exact ⟨rtr ++ (gameLoop f total total 1 LIVES rest3).trace,
            by simp [gameLoop, hr, hl, hrl, hok, answer_events]⟩
      | false =>
        exact ⟨rtr ++ [Ev.thanks], by simp [gameLoop, hr, hl, hrl, answer_events]⟩

/-- Witness for C7: no zero lives message in a short concrete run, and
the prompt right after a wrong answer at one life. -/
theorem quiz_game_over_on_zero_lives_witness :
    Ev.livesLeft 0 ∉ (gameRun 10 [qParis] ["2"]).trace ∧
    ∃ tl, (gameLoop 5 [qParis] [qParis] 1 1 ["2"]).trace =
      Ev.present 1 qParis :: Ev.wrongMsg "paris" :: Ev.lost :: tl :=
  ⟨quiz_game_over_on_zero_lives.1 10 [qParis] ["2"],
   quiz_game_over_on_zero_lives.2 4 [qParis] qParis [] 1 1 "2" [] (by decide) (by decide)⟩

/-- C2 counterexample: with one question, an invalid answer followed by a
valid but wrong answer completes the run with the lives counter still at
its initial value, although the wrong answer announcement was printed: the
mismatch after a re-prompt does not decrement lives. -/
theorem quiz_wrong_after_invalid_counterexample :
    (gameRun 10 [qParis] ["9", "2"]).lives = LIVES ∧
    Ev.wrongMsg (pyLower qParis.answer) ∈ (gameRun 10 [qParis] ["9", "2"]).trace ∧
    (gameRun 10 [qParis] ["9", "2"]).ok = true := by decide

/-- C2 amended: a valid but wrong answer given as the first answer to a
question announces the correct answer, decrements lives by one and
advances; a valid but wrong answer given after invalid input re-prompts
announces the correct answer (inside the re-prompt loop trace) and
advances, but the lives counter is passed to the continuation
unchanged. -/
theorem quiz_wrong_answer_behaviour (f : Nat) (total : List Question) (q : Question)
    (rest : List Question) (qn : Nat) (lives : Int) (a : String) (inputs : List String) :
    (check_answer (pyLower a) (pyLower q.answer) q.options = AnswerResult.incorrect →
      lives - 1 ≠ 0 →
      gameLoop (f + 1) total (q :: rest) qn lives (a :: inputs) =
        (let tail := gameLoop f total rest (qn + 1) (lives - 1) inputs
         ⟨Ev.present qn q :: Ev.wrongMsg (pyLower q.answer) :: Ev.livesLeft (lives - 1) ::
             tail.trace, tail.remaining, tail.ok, tail.lives⟩)) ∧
    (∀ (itr : List Ev) (r2 : AnswerResult) (rest2 : List String),
      check_answer (pyLower a) (pyLower q.answer) q.options = AnswerResult.invalid →
      invalidLoop q qn f inputs = (itr, some (r2, rest2)) →
      gameLoop (f + 1) total (q :: rest) qn lives (a :: inputs) =
        (let tail := gameLoop f total rest (qn + 1) lives rest2
         ⟨(Ev.present qn q :: Ev.enterValid :: itr) ++ tail.trace, tail.remaining, tail.ok,
             tail.lives⟩)) := by
  constructor
  · intro hr hl
    simp [gameLoop, hr, hl, answer_events]
  · intro itr r2 rest2 hr hil
    simp [gameLoop, hr, hil, answer_events]

/-- Witness for C2 amended: the two behaviours at one concrete question,
first losing a life on a direct wrong answer, then keeping all lives on a
wrong answer after a re-prompt. -/
theorem quiz_wrong_answer_behaviour_witness :
    gameLoop 5 [qParis] [qParis] 1 3 ["2"] =
      ⟨[Ev.present 1 qParis, Ev.wrongMsg "paris", Ev.livesLeft 2], [], true, 2⟩ ∧
    gameLoop 5 [qParis] [qParis] 1 3 ["9", "2"] =
      ⟨[Ev.present 1 qParis, Ev.enterValid, Ev.present 1 qParis, Ev.wrongMsg "paris"],
        [], true, 3⟩ :=
  ⟨((quiz_wrong_answer_behaviour 4 [qParis] qParis [] 1 3 "2" []).1
      (by decide) (by decide)).trans (by decide),
   ((quiz_wrong_answer_behaviour 4 [qParis] qParis [] 1 3 "9" ["2"]).2
      [Ev.present 1 qParis, Ev.wrongMsg "paris"] AnswerResult.incorrect []
      (by decide) (by decide)).trans (by decide)⟩

/-- C3 at the failing input: lose three lives, answer y at the prompt, let
the restarted session answer everything correctly and return; the outer
frame then resumes at zero lives, a further wrong answer drives the
counter to minus one, and the run completes normally announcing minus one
remaining lives. -/
theorem quiz_lives_go_negative_after_restart :
    Ev.livesLeft (-1) ∈ (gameRun 30 [qParis, qEasy2, qMedium, qHard]
      ["2", "2", "2", "y", "1", "1", "1", "1", "2"]).trace ∧
    (gameRun 30 [qParis, qEasy2, qMedium, qHard]
      ["2", "2", "2", "y", "1", "1", "1", "1", "2"]).lives = -1 ∧
    (gameRun 30 [qParis, qEasy2, qMedium, qHard]
      ["2", "2", "2", "y", "1", "1", "1", "1", "2"]).ok = true := by decide

/-- C4: an answer that is not a numeral within the option range is
classified invalid input: the loop re-presents the same question for new
answers, and in every outcome the continuation receives the lives counter
unchanged; during re-prompting only the same question is shown and no
lives or game over message occurs. -/
theorem quiz_invalid_input_behaviour (f : Nat) (total : List Question) (q : Question)
    (rest : List Question) (qn : Nat) (lives : Int) (a : String) (inputs : List String)
    (hr : check_answer (pyLower a) (pyLower q.answer) q.options = AnswerResult.invalid) :
    (gameLoop (f + 1) total (q :: rest) qn lives (a :: inputs) =
      match invalidLoop q qn f inputs with
      | (itr, none) => ⟨Ev.present qn q :: Ev.enterValid :: itr, [], false, lives⟩
      | (itr, some (_, rest2)) =>
        let tail := gameLoop f total rest (qn + 1) lives rest2
        ⟨(Ev.present qn q :: Ev.enterValid :: itr) ++ tail.trace, tail.remaining, tail.ok,
          tail.lives⟩) ∧
    ∀ e ∈ (invalidLoop q qn f inputs).1,
      e = Ev.present qn q ∨ e = Ev.enterValid ∨ e = Ev.correctMsg ∨
        ∃ s, e = Ev.wrongMsg s := by
  constructor
  · rcases hil : invalidLoop q qn f inputs with ⟨itr, out⟩
    cases out with
    | none => simp [gameLoop, hr, hil, answer_events]
    | some p =>
      rcases p with ⟨r2, rest2⟩
      simp [gameLoop, hr, hil, answer_events]
  · exact invalidLoop_events q qn f inputs

/-- Witness for C4: one invalid answer then a wrong one on a concrete
question; the run completes with lives untouched. -/
theorem quiz_invalid_input_behaviour_witness :
    gameLoop 5 [qParis] [qParis] 1 3 ["5", "2"] =
      ⟨[Ev.present 1 qParis, Ev.enterValid, Ev.present 1 qParis, Ev.wrongMsg "paris"],
        [], true, 3⟩ ∧
    ∀ e ∈ (invalidLoop qParis 1 4 ["2"]).1,
      e = Ev.present 1 qParis ∨ e = Ev.enterValid ∨ e = Ev.correctMsg ∨
        ∃ s, e = Ev.wrongMsg s :=
  ⟨((quiz_invalid_input_behaviour 4 [qParis] qParis [] 1 3 "5" ["2"]
      (by decide)).1).trans (by decide),
   (quiz_invalid_input_behaviour 4 [qParis] qParis [] 1 3 "5" ["2"] (by decide)).2⟩

/-- The pairs of question number and question of the presentation events
of a trace. -/
def presentedPairs (tr : List Ev) : List (Nat × Question) :=
  tr.filterMap (fun e => match e with | Ev.present n q => some (n, q) | _ => none)

/-- Collapse consecutive repeats, leaving the first of each run. -/
def dedupAdj : List (Nat × Question) → List (Nat × Question)
  | [] => []
  | [x] => [x]
  | x :: y :: r => if x = y then dedupAdj (y :: r) else x :: dedupAdj (y :: r)

/-- Number a question list consecutively starting at n. -/
def zipIdxFrom (n : Nat) : List Question → List (Nat × Question)
  | [] => []
  | q :: rest => (n, q) :: zipIdxFrom (n + 1) rest

theorem dedupAdj_cons (x : Nat × Question) (l : List (Nat × Question)) :
    dedupAdj (x :: l) = if l.head? = some x then dedupAdj l else x :: dedupAdj l := by
  cases l with
  | nil => simp [dedupAdj]
  | cons y r =>
    by_cases hxy : x = y
    · subst hxy; simp [dedupAdj]
    · simp [dedupAdj, hxy, eq_comm]

theorem head?_dedupAdj (l : List (Nat × Question)) : (dedupAdj l).head? = l.head? := by
  induction l with
  | nil => rfl
  | cons x t ih =>
    cases t with
    | nil => rfl
    | cons y r =>
      by_cases hxy : x = y
      · subst hxy; simp [dedupAdj, ih]
      · simp [dedupAdj, hxy]

theorem dedupAdj_cons_append_of_run (x : Nat × Question) :
    ∀ (xs t : List (Nat × Question)), (∀ y ∈ xs, y = x) →
      dedupAdj (x :: (xs ++ t)) = dedupAdj (x :: t) := by
  intro xs
  induction xs with
  | nil => intro t h; rfl
  | cons z zs ih =>
    intro t h
    have hz : z = x := h z (List.mem_cons_self _ _)
    subst hz
    show dedupAdj (z :: z :: (zs ++ t)) = _
    simp only [dedupAdj, if_pos rfl]
    exact ih t (fun y hy => h y (List.mem_cons_of_mem _ hy))

/-- Every presentation inside the re-prompt loop shows the same numbered
question. -/
theorem invalidLoop_presents (q : Question) (qn : Nat) (f : Nat) (inputs : List String) :
    ∀ p ∈ presentedPairs (invalidLoop q qn f inputs).1, p = (qn, q) := by
  intro p hp
  rcases List.mem_filterMap.mp hp with ⟨e, he, hmap⟩
  rcases invalidLoop_events q qn f inputs e he with rfl | rfl | rfl | ⟨s, rfl⟩
  · simpa [eq_comm] using hmap
  · simp at hmap
  · simp at hmap
  · simp at hmap

/-- Presentation order of a frame: a run that completes without a game
over presents exactly the pending questions, consecutively numbered, in
order, each shown one or more times in a row. -/
theorem gameLoop_order : ∀ (f : Nat) (total rem : List Question) (qn : Nat)
    (lives : Int) (inputs : List String),
    (gameLoop f total rem qn lives inputs).ok = true →
    Ev.lost ∉ (gameLoop f total rem qn lives inputs).trace →
    dedupAdj (presentedPairs (gameLoop f total rem qn lives inputs).trace) =
      zipIdxFrom qn rem := by
  intro f
  induction f with
  | zero =>
    intro total rem qn lives inputs hok hnl
    cases rem with
    | nil => simp [gameLoop, presentedPairs, dedupAdj, zipIdxFrom]
    | cons q rest => simp [gameLoop] at hok
  | succ f ih =>
    intro total rem qn lives inputs hok hnl
    cases rem with
    | nil => simp [gameLoop, presentedPairs, dedupAdj, zipIdxFrom]
    | cons q rest =>
      cases inputs with
      | nil => simp [gameLoop] at hok
      | cons a inputs2 =>
        cases hr : check_answer (pyLower a) (pyLower q.answer) q.options with
        | correct =>
          simp only [gameLoop, hr, answer_events] at hok hnl ⊢
          simp only [List.cons_append, List.nil_append] at hok hnl ⊢
          have hok2 : (gameLoop f total rest (qn + 1) lives inputs2).ok = true := hok
          have hnl2 : Ev.lost ∉ (gameLoop f total rest (qn + 1) lives inputs2).trace := by
            intro hmem
            exact hnl (List.mem_cons_of_mem _ (List.mem_cons_of_mem _ hmem))
          have IH := ih total rest (qn + 1) lives inputs2 hok2 hnl2
          have hhead : ¬ (presentedPairs
              (gameLoop f total rest (qn + 1) lives inputs2).trace).head? = some (qn, q) := by
            rw [← head?_dedupAdj, IH]
            cases rest with
            | nil => simp [zipIdxFrom]
            | cons q2 r2 =>
              simp only [zipIdxFrom, List.head?_cons, Option.some.injEq, Prod.mk.injEq,
                not_and]
              intro h
              omega
          simp only [presentedPairs, List.filterMap_cons] at *
          rw [dedupAdj_cons, if_neg hhead, IH, zipIdxFrom]
        | incorrect =>
          by_cases hl : lives - 1 = 0
          · exfalso
            apply hnl
            rcases hrl : restartLoop f inputs2 with ⟨rtr, out⟩
            cases out with
            | none => simp [gameLoop, hr, hl, hrl, answer_events]
            | some p =>
              rcases p with ⟨b, rest3⟩
              cases b with
              | true =>
                cases hok2 : (gameLoop f total total 1 LIVES rest3).ok with
                | true => simp [gameLoop, hr, hl, hrl, hok2, answer_events]
                | false => simp [gameLoop, hr, hl, hrl, hok2, answer_events]
              | false => simp [gameLoop, hr, hl, hrl, answer_events]
          · simp only [gameLoop, hr, answer_events] at hok hnl ⊢
            rw [if_neg hl] at hok hnl ⊢
            simp only [List.cons_append, List.nil_append] at hok hnl ⊢
            have hok2 : (gameLoop f total rest (qn + 1) (lives - 1) inputs2).ok = true := hok
            have hnl2 : Ev.lost ∉ (gameLoop f total rest (qn + 1) (lives - 1) inputs2).trace := by
              intro hmem
              exact hnl (List.mem_cons_of_mem _ (List.mem_cons_of_mem _
                (List.mem_cons_of_mem _ hmem)))
            have IH := ih total rest (qn + 1) (lives - 1) inputs2 hok2 hnl2
            have hhead : ¬ (presentedPairs
                (gameLoop f total rest (qn + 1) (lives - 1) inputs2).trace).head? =
                  some (qn, q) := by
              rw [← head?_dedupAdj, IH]
              cases rest with
              | nil => simp [zipIdxFrom]
              | cons q2 r2 =>
                simp only [zipIdxFrom, List.head?_cons, Option.some.injEq, Prod.mk.injEq,
                  not_and]
                intro h
                omega
            simp only [presentedPairs, List.filterMap_cons] at *
            rw [dedupAdj_cons, if_neg hhead, IH, zipIdxFrom]
        | invalid =>
          rcases hil : invalidLoop q qn f inputs2 with ⟨itr, out⟩
          cases out with
          | none => simp [gameLoop, hr, hil] at hok
          | some p =>
            rcases p with ⟨r2, rest3⟩
            simp only [gameLoop, hr, hil, answer_events] at hok hnl ⊢
            simp only [List.cons_append, List.nil_append, List.append_assoc] at hok hnl ⊢
            have hok2 : (gameLoop f total rest (qn + 1) lives rest3).ok = true := hok
            have hnl2 : Ev.lost ∉ (gameLoop f total rest (qn + 1) lives rest3).trace := by
              intro hmem
              apply hnl
              exact List.mem_cons_of_mem _ (List.mem_cons_of_mem _
                (List.mem_append_right _ hmem))
            have IH := ih total rest (qn + 1) lives rest3 hok2 hnl2
            have hrun : ∀ y ∈ presentedPairs itr, y = (qn, q) := by
              intro y hy
              apply invalidLoop_presents q qn f inputs2
              rw [hil]
              exact hy
            have hhead : ¬ (presentedPairs
                (gameLoop f total rest (qn + 1) lives rest3).trace).head? = some (qn, q) := by
              rw [← head?_dedupAdj, IH]
              cases rest with
              | nil => simp [zipIdxFrom]
              | cons q2 r2 =>
                simp only [zipIdxFrom, List.head?_cons, Option.some.injEq, Prod.mk.injEq,
                  not_and]
                intro h
                omega
            simp only [presentedPairs, List.filterMap_cons, List.filterMap_append] at *
            rw [dedupAdj_cons_append_of_run (qn, q) _ _ hrun, dedupAdj_cons, if_neg hhead,
              IH, zipIdxFrom]

/-- C5: in every quiz session that completes without a game over, the
questions presented, collapsing the consecutive repeats produced by
re-prompting, are exactly the easy questions in original file order, then
the medium ones, then the hard ones, consecutively numbered from one. -/
theorem quiz_presentation_order (fuel : Nat) (questions : List Question)
    (inputs : List String)
    (hok : (gameRun fuel questions inputs).ok = true)
    (hnl : Ev.lost ∉ (gameRun fuel questions inputs).trace) :
    dedupAdj (presentedPairs (gameRun fuel questions inputs).trace) =
      zipIdxFrom 1 (questions.filter (fun q => pyLower q.difficulty == "easy") ++
        (questions.filter (fun q => pyLower q.difficulty == "medium") ++
          questions.filter (fun q => pyLower q.difficulty == "hard"))) := by
  have h := gameLoop_order fuel (total_questions questions) (total_questions questions)
    1 LIVES inputs hok hnl
  rw [gameRun, h]
  simp [total_questions, categorize_questions]

/-- Witness for C5: a hard question listed before an easy one is still
presented second. -/
theorem quiz_presentation_order_witness :
    dedupAdj (presentedPairs (gameRun 10 [qHard, qParis] ["1", "1"]).trace) =
      zipIdxFrom 1 ([qHard, qParis].filter (fun q => pyLower q.difficulty == "easy") ++
        ([qHard, qParis].filter (fun q => pyLower q.difficulty == "medium") ++
          [qHard, qParis].filter (fun q => pyLower q.difficulty == "hard"))) :=
  quiz_presentation_order 10 [qHard, qParis] ["1", "1"] (by decide) (by decide)

/-- Filtering by a weaker predicate first does not change a filter. -/
theorem filter_of_filter_imp {p pc : Question → Bool}
    (h : ∀ q, p q = true → pc q = true) :
    ∀ qs : List Question, (qs.filter pc).filter p = qs.filter p := by
  intro qs
  induction qs with
  | nil => rfl
  | cons q rest ih =>
    cases hc : pc q with
    | true =>
      cases hp : p q with
      | true => simp [List.filter_cons, hc, hp, ih]
      | false => simp [List.filter_cons, hc, hp, ih]
    | false =>
      have hp : p q = false := by
        cases hpq : p q with
        | true => exact absurd (h q hpq) (by simp [hc])
        | false => rfl
      simp [List.filter_cons, hc, hp, ih]

/-- C10: a loaded question whose difficulty is none of easy, medium or
hard is silently dropped: the whole run is identical to the run over the
list with only categorized questions, and the question is never
presented. -/
theorem quiz_uncategorized_dropped (fuel : Nat) (questions : List Question)
    (inputs : List String) (q : Question)
    (h1 : pyLower q.difficulty ≠ "easy") (h2 : pyLower q.difficulty ≠ "medium")
    (h3 : pyLower q.difficulty ≠ "hard") :
    gameRun fuel questions inputs =
      gameRun fuel (questions.filter (fun q2 => pyLower q2.difficulty == "easy" ||
        (pyLower q2.difficulty == "medium" || pyLower q2.difficulty == "hard"))) inputs ∧
    ∀ n, Ev.present n q ∉ (gameRun fuel questions inputs).trace := by
  constructor
  · have htot : total_questions (questions.filter
        (fun q2 => pyLower q2.difficulty == "easy" ||
          (pyLower q2.difficulty == "medium" || pyLower q2.difficulty == "hard"))) =
        total_questions questions := by
      unfold total_questions categorize_questions
      rw [filter_of_filter_imp (fun q2 hq2 => by simp [hq2]),
        filter_of_filter_imp (fun q2 hq2 => by simp [hq2]),
        filter_of_filter_imp (fun q2 hq2 => by simp [hq2])]
    rw [gameRun, gameRun, htot]
  · intro n hmem
    have hev := gameLoop_trace_events fuel (total_questions questions)
      (total_questions questions) 1 LIVES inputs (fun q2 hq2 => hq2) (Ev.present n q) hmem
    have hq := hev.2 n q rfl
    unfold total_questions categorize_questions at hq
    simp only [List.mem_append, List.mem_filter, beq_iff_eq] at hq
    rcases hq with (⟨_, hd⟩ | ⟨_, hd⟩) | ⟨_, hd⟩
    · exact h1 hd
    · exact h2 hd
    · exact h3 hd

def qExpert : Question := ⟨"fifth question", "A", ["A", "B"], "expert"⟩

/-- Witness for C10: a question of difficulty expert is dropped and never
shown. -/
theorem quiz_uncategorized_dropped_witness :
    gameRun 10 [qParis, qExpert] ["1"] =
      gameRun 10 ([qParis, qExpert].filter (fun q2 => pyLower q2.difficulty == "easy" ||
        (pyLower q2.difficulty == "medium" || pyLower q2.difficulty == "hard"))) ["1"] ∧
    Ev.present 1 qExpert ∉ (gameRun 10 [qParis, qExpert] ["1"]).trace :=
  ⟨(quiz_uncategorized_dropped 10 [qParis, qExpert] ["1"] qExpert
      (by decide) (by decide) (by decide)).1,
   (quiz_uncategorized_dropped 10 [qParis, qExpert] ["1"] qExpert
      (by decide) (by decide) (by decide)).2 1⟩
